import Mathlib

/-!
Verification development for the `jsonsubschema_with_semantic_check` library.

The library decides structural and semantic subtyping between JSON Schema
documents.  This file gives a shallow embedding of the code paths under
`src/jsonsubschema/` (`api.py`, `semantic_type.py`): schema documents are
modelled as a JSON value type, the semantic-compatibility checker and the
`SemanticTypeResolver` are translated function by function, and the public
API operations (`isSubschema`, `meet`, `join`, `isEquivalent`) are embedded
with the structural layer (the `_canonicalization` module, which is not part
of the sources) as explicit function parameters.
-/

set_option maxHeartbeats 1000000

namespace JsonSub

/-- A JSON value, the model of a (reference-resolved) schema document.
Python dictionaries become `obj` (keys are unique in a dict; the embedding
uses first-occurrence lookup, which agrees with dict semantics). -/
inductive JSON where
  | null
  | bool (b : Bool)
  | num (n : Int)
  | str (s : String)
  | arr (elems : List JSON)
  | obj (fields : List (String × JSON))

/-- Structural equality of JSON values: the model of Python `==` on schema
documents and annotation values. -/
def JSON.beq : JSON → JSON → Bool
  | .null, .null => true
  | .bool a, .bool b => a == b
  | .num a, .num b => a == b
  | .str a, .str b => a == b
  | .arr [], .arr [] => true
  | .arr (x :: xs), .arr (y :: ys) => JSON.beq x y && JSON.beq (.arr xs) (.arr ys)
  | .obj [], .obj [] => true
  | .obj ((k1, v1) :: r1), .obj ((k2, v2) :: r2) =>
      k1 == k2 && JSON.beq v1 v2 && JSON.beq (.obj r1) (.obj r2)
  | _, _ => false

theorem JSON.beq_iff_eq : ∀ a b, JSON.beq a b = true ↔ a = b := by
  intro a b
  induction a, b using JSON.beq.induct
  case case1 => simp [JSON.beq]
  case case2 => simp [JSON.beq]
  case case3 => simp [JSON.beq]
  case case4 => simp [JSON.beq]
  case case5 => simp [JSON.beq]
  case case6 x xs y ys ih1 ih2 =>
    simp only [JSON.beq, Bool.and_eq_true, ih1, ih2]
    constructor
    · rintro ⟨h1, h2⟩; simp_all
    · rintro h; cases h; simp_all
  case case7 => simp [JSON.beq]
  case case8 k1 v1 r1 k2 v2 r2 ih1 ih2 =>
    simp only [JSON.beq, Bool.and_eq_true, ih1, ih2, beq_iff_eq]
    constructor
    · rintro ⟨⟨h1, h2⟩, h3⟩; simp_all
    · rintro h; cases h; simp_all
  case case9 a b h1 h2 h3 h4 h5 h6 h7 h8 =>
    have hne : a ≠ b := by
      intro h; subst h
      cases a with
      | null => exact h1 rfl rfl
      | bool x => exact h2 x x rfl rfl
      | num x => exact h3 x x rfl rfl
      | str s => exact h4 s s rfl rfl
      | arr l => cases l with
        | nil => exact h5 rfl rfl
        | cons x xs => exact h6 x xs x xs rfl rfl
      | obj l => cases l with
        | nil => exact h7 rfl rfl
        | cons kv r => exact h8 kv.1 kv.2 r kv.1 kv.2 r (by simp) (by simp)
    have hbeq : JSON.beq a b = false := by
      rw [JSON.beq.eq_def]
      split <;>
        first
          | rfl
          | exact (h1 rfl rfl).elim
          | exact (h2 _ _ rfl rfl).elim
          | exact (h3 _ _ rfl rfl).elim
          | exact (h4 _ _ rfl rfl).elim
          | exact (h5 rfl rfl).elim
          | exact (h6 _ _ _ _ rfl rfl).elim
          | exact (h7 rfl rfl).elim
          | exact (h8 _ _ _ _ _ _ rfl rfl).elim
    simp [hbeq, hne]

instance : DecidableEq JSON := fun a b => decidable_of_iff _ (JSON.beq_iff_eq a b)

/-- First-occurrence association-list lookup: the model of Python dict
indexing / `dict.get`. -/
def lookupField : List (String × JSON) → String → Option JSON
  | [], _ => none
  | (k, v) :: rest, key => if k = key then some v else lookupField rest key

/-- Embeds `d.get(key)` on a schema document: `None` when the key is absent
(or the value is not a dictionary). -/
def JSON.get : JSON → String → Option JSON
  | .obj fields, key => lookupField fields key
  | _, _ => none

/-- Embeds `d.get(key, default)`. -/
def JSON.getd (j : JSON) (key : String) (d : JSON) : JSON :=
  (j.get key).getD d

/-- Python truthiness of a JSON value (`if value:`): `None`, `False`, `0`,
`""`, `[]` and `{}` are falsy. -/
def JSON.truthy : JSON → Bool
  | .null => false
  | .bool b => b
  | .num n => n != 0
  | .str s => s != ""
  | .arr l => !l.isEmpty
  | .obj l => !l.isEmpty

/-- Truthiness of an optional value (`d.get(k)` used in a condition):
a missing key is falsy, a present value uses JSON truthiness. -/
def truthyOpt : Option JSON → Bool
  | none => false
  | some j => j.truthy

/-- Embeds `key in d` on a Python dictionary. -/
def JSON.hasKey (j : JSON) (key : String) : Bool :=
  match j with
  | .obj fields => fields.any (fun kv => kv.1 = key)
  | _ => false

/-- Python dict assignment `d[key] = v`: replace the first binding of `key`,
or append a new one. -/
def setFieldList : List (String × JSON) → String → JSON → List (String × JSON)
  | [], k, v => [(k, v)]
  | (k', v') :: rest, k, v =>
      if k' = k then (k, v) :: rest else (k', v') :: setFieldList rest k v

/-- Embeds `result_dict = dict(result); result_dict[key] = v` on a schema document. -/
def JSON.setField : JSON → String → JSON → JSON
  | .obj fields, k, v => .obj (setFieldList fields k v)
  | j, _, _ => j

theorem lookupField_setFieldList (fs : List (String × JSON)) (k : String) (v : JSON) :
    lookupField (setFieldList fs k v) k = some v := by
  induction fs with
  | nil => simp [setFieldList, lookupField]
  | cons kv rest ih =>
      obtain ⟨k', v'⟩ := kv
      by_cases h : k' = k
      · simp [setFieldList, h, lookupField]
      · simp [setFieldList, h, lookupField, ih]

theorem lookupField_mem {fs : List (String × JSON)} {k : String} {v : JSON}
    (h : lookupField fs k = some v) : (k, v) ∈ fs := by
  induction fs with
  | nil => simp [lookupField] at h
  | cons kv rest ih =>
      obtain ⟨k', v'⟩ := kv
      by_cases hk : k' = k
      · subst hk
        simp [lookupField] at h
        simp [h]
      · simp [lookupField, hk] at h
        exact List.mem_cons_of_mem _ (ih h)

theorem sizeOf_lt_of_mem_fields {fs : List (String × JSON)} {k : String} {v : JSON}
    (h : (k, v) ∈ fs) : sizeOf v < sizeOf (JSON.obj fs) := by
  have h1 : sizeOf (k, v) < sizeOf fs := List.sizeOf_lt_of_mem h
  have h2 : sizeOf v < sizeOf (k, v) := by
    simp [Prod.mk.sizeOf_spec]
  simp only [JSON.obj.sizeOf_spec]
  omega

theorem sizeOf_get_lt {s : JSON} {k : String} {v : JSON}
    (h : s.get k = some v) : sizeOf v < sizeOf s := by
  match s with
  | .obj fields => exact sizeOf_lt_of_mem_fields (lookupField_mem h)
  | .null | .bool _ | .num _ | .str _ | .arr _ => simp [JSON.get] at h

theorem sizeOf_lt_of_mem_arr {l : List JSON} {v : JSON}
    (h : v ∈ l) : sizeOf v < sizeOf (JSON.arr l) := by
  have h1 : sizeOf v < sizeOf l := List.sizeOf_lt_of_mem h
  simp only [JSON.arr.sizeOf_spec]
  omega

theorem getd_cases {s : JSON} {key : String} {d v : JSON}
    (h : s.getd key d = v) : v = d ∨ sizeOf v < sizeOf s := by
  unfold JSON.getd at h
  cases hg : s.get key with
  | none => simp [hg] at h; exact Or.inl h.symm
  | some w =>
      simp [hg] at h
      exact Or.inr (h ▸ sizeOf_get_lt hg)

theorem sizeOf_lt_of_getd_obj_mem {s : JSON} {key : String}
    {fs : List (String × JSON)} {k : String} {v : JSON}
    (h : s.getd key (JSON.obj []) = .obj fs) (hm : (k, v) ∈ fs) :
    sizeOf v < sizeOf s := by
  rcases getd_cases h with hc | hc
  · cases hc; simp at hm
  · exact Nat.lt_trans (sizeOf_lt_of_mem_fields hm) hc

theorem sizeOf_lt_of_getd_arr_mem {s : JSON} {key : String}
    {l : List JSON} {v : JSON}
    (h : s.getd key (JSON.arr []) = .arr l) (hm : v ∈ l) :
    sizeOf v < sizeOf s := by
  rcases getd_cases h with hc | hc
  · cases hc; simp at hm
  · exact Nat.lt_trans (sizeOf_lt_of_mem_arr hm) hc

theorem sizeOf_snd_lt_of_mem_fields {fs : List (String × JSON)} {p : String × JSON}
    (h : p ∈ fs) : sizeOf p.2 < sizeOf (JSON.obj fs) := by
  obtain ⟨k, v⟩ := p
  exact sizeOf_lt_of_mem_fields h

/-! ## The semantic compatibility checker (`semantic_type.py`, lines 324-532)

The resolver is passed in as a function `R`, the model of the
`resolver.is_subtype_of` method of the resolver object that Python threads
through these functions.  `enabled` models the process-wide
`config.SEMANTIC_REASONING_ENABLED` flag which the Python code reads on
entry. -/

/-- Embeds `_check_semantic_types_compatible` (semantic_type.py, lines 346-368):
the one-node compatibility rule on the `stype` annotations. -/
def _check_semantic_types_compatible (R : JSON → JSON → Bool) (s1 s2 : JSON) : Bool :=
  match s1.get "stype", s2.get "stype" with
  | none, none => true
  | some _, none => true
  | none, some _ => false
  | some x, some y => R x y

/-- Embeds `_has_semantic_types_in_items` (semantic_type.py, lines 448-454). -/
def _has_semantic_types_in_items (items : JSON) : Bool :=
  match items with
  | .obj fs => (JSON.obj fs).hasKey "stype" || fs.any (fun kv => kv.2.hasKey "stype")
  | .arr l => l.any (fun item => item.hasKey "stype")
  | _ => false

mutual

/-- Embeds `is_semantically_compatible` (semantic_type.py, lines 324-343): the
root-level rule followed by the recursive walk of the nested structure. -/
def is_semantically_compatible (enabled : Bool) (R : JSON → JSON → Bool)
    (s1 s2 : JSON) : Bool :=
  if !enabled then true
  else if !(_check_semantic_types_compatible R s1 s2) then false
  else _check_nested_semantic_compatibility enabled R s1 s2
termination_by (sizeOf s1, 2)
decreasing_by
  all_goals simp_wf
  all_goals exact Prod.Lex.right _ (by omega)

/-- Embeds `_check_nested_semantic_compatibility` (semantic_type.py, lines 371-394). -/
def _check_nested_semantic_compatibility (enabled : Bool) (R : JSON → JSON → Bool)
    (s1 s2 : JSON) : Bool :=
  if !(_check_object_properties_semantic_compatibility enabled R s1 s2) then false
  else if !(_check_array_items_semantic_compatibility enabled R s1 s2) then false
  else if !(_check_additional_properties_semantic_compatibility enabled R s1 s2) then false
  else if !(_check_pattern_properties_semantic_compatibility enabled R s1 s2) then false
  else if !(_check_boolean_connectives_semantic_compatibility enabled R s1 s2) then false
  else true
termination_by (sizeOf s1, 1)
decreasing_by
  all_goals simp_wf
  all_goals exact Prod.Lex.right _ (by omega)

/-- Embeds `_check_object_properties_semantic_compatibility` (semantic_type.py,
lines 397-409): for every property name declared on both sides, the two
property schemas must be compatible.  In the source `s1.get('properties', {})`
yields an empty dict when the keyword is absent, making the loop over common
names vacuous; here an absent (or non-object) `properties` short-circuits to
`true`, which is the same behaviour. -/
def _check_object_properties_semantic_compatibility (enabled : Bool)
    (R : JSON → JSON → Bool) (s1 s2 : JSON) : Bool :=
  match h1 : s1.get "properties", s2.get "properties" with
  | some (.obj f1), some (.obj f2) =>
      f1.attach.all (fun a =>
        match lookupField f2 a.1.1 with
        | none => true
        | some v2 => is_semantically_compatible enabled R a.1.2 v2)
  | _, _ => true
termination_by (sizeOf s1, 0)
decreasing_by
  all_goals simp_wf
  all_goals apply Prod.Lex.left
  all_goals exact Nat.lt_trans (sizeOf_snd_lt_of_mem_fields a.2) (sizeOf_get_lt h1)

/-- Embeds `_check_array_items_semantic_compatibility` (semantic_type.py,
lines 413-446): schema-vs-schema items, positionwise tuple items, and the
mixed case which is incompatible only when semantic types are involved.
A falsy `items` value (empty dict/list) skips the check, as in Python
(`if s1_items and s2_items`). -/
def _check_array_items_semantic_compatibility (enabled : Bool)
    (R : JSON → JSON → Bool) (s1 s2 : JSON) : Bool :=
  match h1 : s1.get "items", s2.get "items" with
  | some (.obj f1), some (.obj f2) =>
      if (JSON.obj f1).truthy && (JSON.obj f2).truthy then
        is_semantically_compatible enabled R (.obj f1) (.obj f2)
      else true
  | some (.arr l1), some (.arr l2) =>
      if (JSON.arr l1).truthy && (JSON.arr l2).truthy then
        (l1.zip l2).attach.all (fun a =>
          is_semantically_compatible enabled R a.1.1 a.1.2)
      else true
  | some (.obj f1), some (.arr l2) =>
      if (JSON.obj f1).truthy && (JSON.arr l2).truthy then
        !(_has_semantic_types_in_items (.obj f1) || _has_semantic_types_in_items (.arr l2))
      else true
  | some (.arr l1), some (.obj f2) =>
      if (JSON.arr l1).truthy && (JSON.obj f2).truthy then
        !(_has_semantic_types_in_items (.arr l1) || _has_semantic_types_in_items (.obj f2))
      else true
  | _, _ => true
termination_by (sizeOf s1, 0)
decreasing_by
  all_goals simp_wf
  all_goals apply Prod.Lex.left
  all_goals first
    | (have hlt := sizeOf_get_lt h1
       simp only [JSON.obj.sizeOf_spec] at hlt
       omega)
    | exact Nat.lt_trans (sizeOf_lt_of_mem_arr (List.of_mem_zip a.2).1) (sizeOf_get_lt h1)

/-- Embeds `_check_additional_properties_semantic_compatibility` (semantic_type.py,
lines 456-467): checked only when both sides carry a schema object there. -/
def _check_additional_properties_semantic_compatibility (enabled : Bool)
    (R : JSON → JSON → Bool) (s1 s2 : JSON) : Bool :=
  match h1 : s1.get "additionalProperties", s2.get "additionalProperties" with
  | some (.obj f1), some (.obj f2) =>
      is_semantically_compatible enabled R (.obj f1) (.obj f2)
  | _, _ => true
termination_by (sizeOf s1, 0)
decreasing_by
  all_goals simp_wf
  all_goals apply Prod.Lex.left
  all_goals (have hlt := sizeOf_get_lt h1
             simp only [JSON.obj.sizeOf_spec] at hlt
             omega)

/-- Embeds `_check_pattern_properties_semantic_compatibility` (semantic_type.py,
lines 470-483): identical pattern strings are compared pairwise. -/
def _check_pattern_properties_semantic_compatibility (enabled : Bool)
    (R : JSON → JSON → Bool) (s1 s2 : JSON) : Bool :=
  match h1 : s1.get "patternProperties", s2.get "patternProperties" with
  | some (.obj f1), some (.obj f2) =>
      f1.attach.all (fun a =>
        match lookupField f2 a.1.1 with
        | none => true
        | some v2 => is_semantically_compatible enabled R a.1.2 v2)
  | _, _ => true
termination_by (sizeOf s1, 0)
decreasing_by
  all_goals simp_wf
  all_goals apply Prod.Lex.left
  all_goals exact Nat.lt_trans (sizeOf_snd_lt_of_mem_fields a.2) (sizeOf_get_lt h1)

/-- Embeds `_check_boolean_connectives_semantic_compatibility` (semantic_type.py,
lines 486-532): allOf (each lhs branch compatible with some rhs branch),
anyOf (some lhs branch compatible with some rhs branch), and oneOf, which
the source treats like anyOf (each lhs branch's compatible rhs branches are
counted; any positive count returns true). -/
def _check_boolean_connectives_semantic_compatibility (enabled : Bool)
    (R : JSON → JSON → Bool) (s1 s2 : JSON) : Bool :=
  let allOfOK : Bool :=
    match ha1 : s1.get "allOf", s2.get "allOf" with
    | some (.arr l1), some (.arr l2) =>
        if !l1.isEmpty && !l2.isEmpty then
          l1.attach.all (fun a =>
            l2.any (fun b => is_semantically_compatible enabled R a.1 b))
        else true
    | _, _ => true
  if !allOfOK then false
  else
    let anyOfOK : Bool :=
      match hb1 : s1.get "anyOf", s2.get "anyOf" with
      | some (.arr l1), some (.arr l2) =>
          if !l1.isEmpty && !l2.isEmpty then
            l1.attach.any (fun a =>
              l2.any (fun b => is_semantically_compatible enabled R a.1 b))
          else true
      | _, _ => true
    if !anyOfOK then false
    else
      match hc1 : s1.get "oneOf", s2.get "oneOf" with
      | some (.arr l1), some (.arr l2) =>
          if !l1.isEmpty && !l2.isEmpty then
            l1.attach.any (fun a =>
              0 < l2.countP (fun b => is_semantically_compatible enabled R a.1 b))
          else true
      | _, _ => true
termination_by (sizeOf s1, 0)
decreasing_by
  all_goals simp_wf
  all_goals apply Prod.Lex.left
  all_goals first
    | exact Nat.lt_trans (sizeOf_lt_of_mem_arr a.2) (sizeOf_get_lt ha1)
    | exact Nat.lt_trans (sizeOf_lt_of_mem_arr a.2) (sizeOf_get_lt hb1)
    | exact Nat.lt_trans (sizeOf_lt_of_mem_arr a.2) (sizeOf_get_lt hc1)

end

/-! ## The semantic type resolver (`semantic_type.py`, lines 12-315)

The RDF graph held by `rdflib` is modelled as a finite list of
subject/predicate/object triples over strings.  External effects are passed
in explicitly: `backendTrans` models whether the RDF store accepts the
transitive-support test query (`_test_transitive_support`'s try/except), and
`fetch` models `graph.parse` during lazy loading (`none` = the fetch raised).
The process-wide `config.SEMANTIC_REASONING_ENABLED` flag is the `enabled`
parameter. -/

/-- A subject/predicate/object RDF triple. -/
abbrev Triple := String × String × String

/-- The IRI of `skos:broader`. -/
def broaderProp : String := "http://www.w3.org/2004/02/skos/core#broader"

/-- The IRI of `rdfs:subClassOf`. -/
def subclassProp : String := "http://www.w3.org/2000/01/rdf-schema#subClassOf"

/-- Split a character list at the first `':'`, the model of Python
`s.split(":", 1)` (`none` when no colon occurs). -/
def splitColonAux : List Char → Option (List Char × List Char)
  | [] => none
  | c :: cs =>
      if c = ':' then some ([], cs)
      else
        match splitColonAux cs with
        | some (a, b) => some (c :: a, b)
        | none => none

/-- Embeds `s.startswith(p)`. -/
def startsWithS (s p : String) : Bool :=
  p.toList.isPrefixOf s.toList

/-- The fixed known-prefix table of `normalize_iri`
(semantic_type.py, lines 297-303). -/
def prefixTable : List (String × String) :=
  [("quantitykind", "http://qudt.org/vocab/quantitykind/"),
   ("qudt", "http://qudt.org/schema/qudt/"),
   ("skos", "http://www.w3.org/2004/02/skos/core#"),
   ("ex", "http://example.org/"),
   ("foaf", "http://xmlns.com/foaf/0.1/")]

/-- Embeds `normalize_iri` (semantic_type.py, lines 282-315): full IRIs pass
through, compact `prefix:local` notation is expanded against the fixed
prefix table, and anything else (including unknown prefixes) is returned
unchanged. -/
def normalize_iri (stype_value : String) : String :=
  if stype_value = "" then stype_value
  else if startsWithS stype_value "http://" || startsWithS stype_value "https://" then
    stype_value
  else
    match splitColonAux stype_value.toList with
    | some (a, b) =>
        match (prefixTable.find? (fun kv => kv.1 = String.mk a)).map (fun kv => kv.2) with
        | some base => base ++ String.mk b
        | none => stype_value
    | none => stype_value

/-- Embeds `_extract_namespace` (semantic_type.py, lines 81-87): the part before
the first `'#'` (inclusive), otherwise everything up to and including the
last `'/'` after stripping trailing slashes. -/
def _extract_namespace (iri : String) : String :=
  let cs := iri.toList
  if cs.contains '#' then
    String.mk (cs.takeWhile (fun c => c != '#')) ++ "#"
  else
    let stripped := (cs.reverse.dropWhile (fun c => c = '/')).reverse
    if stripped.contains '/' then
      String.mk ((stripped.reverse.dropWhile (fun c => c != '/')).reverse)
    else "/"

/-- The mutable state of a `SemanticTypeResolver` instance
(semantic_type.py, lines 47-77). -/
structure Resolver where
  graph : List Triple
  relation_cache : List ((String × String) × Bool)
  supports_transitive_queries : Option Bool
  lazy_load : Bool
  fetched_namespaces : List String

/-- First-occurrence lookup in the relation cache (a Python dict). -/
def lookupCache : List ((String × String) × Bool) → String × String → Option Bool
  | [], _ => none
  | (k, v) :: rest, key => if k = key then some v else lookupCache rest key

/-- Embeds `_type_exists_in_graph` (semantic_type.py, lines 89-91): the IRI occurs
as a subject or as an object of some triple. -/
def _type_exists_in_graph (g : List Triple) (iri : String) : Bool :=
  g.any (fun t => t.1 = iri) || g.any (fun t => t.2.2 = iri)

/-- Embeds `_lazy_load_semantic_type` (semantic_type.py, lines 93-118): at most one
fetch per namespace; a successful fetch merges the fetched triples, records
the namespace, clears the relation cache and resets the transitive-support
flag; a failed fetch records the namespace only. -/
def _lazy_load_semantic_type (fetch : String → Option (List Triple))
    (r : Resolver) (stype_iri : String) : Bool × Resolver :=
  if !r.lazy_load then (false, r)
  else
    let ns := _extract_namespace stype_iri
    if ns ∈ r.fetched_namespaces then (false, r)
    else
      match fetch ns with
      | some triples =>
          (true, { r with
                    graph := r.graph ++ triples,
                    fetched_namespaces := ns :: r.fetched_namespaces,
                    relation_cache := [],
                    supports_transitive_queries := none })
      | none =>
          (false, { r with fetched_namespaces := ns :: r.fetched_namespaces })

/-- Embeds `_test_transitive_support` (semantic_type.py, lines 122-144): the cached
flag if present, otherwise run the test query (its outcome is the
environment parameter `backendTrans`) and cache the outcome. -/
def _test_transitive_support (backendTrans : Bool) (r : Resolver) : Bool × Resolver :=
  match r.supports_transitive_queries with
  | some v => (v, r)
  | none => (backendTrans, { r with supports_transitive_queries := some backendTrans })

/-- All subjects and objects occurring in the graph. -/
def nodesOf (g : List Triple) : List String :=
  g.foldr (fun t acc => t.1 :: t.2.2 :: acc) []

/-- Embeds `self.graph.objects(current, prop)`: the objects of all triples with the
given subject and predicate. -/
def objectsOf (g : List Triple) (s p : String) : List String :=
  (g.filter (fun t => t.1 = s && t.2.1 = p)).map (fun t => t.2.2)

/-- The objects reachable from `c` in one step along any predicate in
`preds`, in predicate order. -/
def predObjs (g : List Triple) (c : String) (preds : List String) : List String :=
  preds.foldr (fun p acc => objectsOf g c p ++ acc) []

theorem mem_objectsOf_iff {g : List Triple} {s p y : String} :
    y ∈ objectsOf g s p ↔ (s, p, y) ∈ g := by
  simp only [objectsOf, List.mem_map, List.mem_filter, Bool.and_eq_true,
    decide_eq_true_eq]
  constructor
  · rintro ⟨⟨t1, t2, t3⟩, ⟨hg, h1, h2⟩, h3⟩
    simp only at h1 h2 h3
    subst h1; subst h2; subst h3
    exact hg
  · intro h
    exact ⟨(s, p, y), ⟨h, rfl, rfl⟩, rfl⟩

theorem mem_predObjs_iff {g : List Triple} {c y : String} {preds : List String} :
    y ∈ predObjs g c preds ↔ ∃ p ∈ preds, (c, p, y) ∈ g := by
  induction preds with
  | nil => simp [predObjs]
  | cons p rest ih =>
      simp only [predObjs, List.foldr_cons, List.mem_append, List.mem_cons]
      rw [show rest.foldr (fun p acc => objectsOf g c p ++ acc) [] = predObjs g c rest from rfl]
      simp only [ih, mem_objectsOf_iff]
      constructor
      · rintro (h | ⟨q, hq, hqy⟩)
        · exact ⟨p, Or.inl rfl, h⟩
        · exact ⟨q, Or.inr hq, hqy⟩
      · rintro ⟨q, hq | hq, hqy⟩
        · subst hq; exact Or.inl hqy
        · exact Or.inr ⟨q, hq, hqy⟩

theorem nodesOf_cons {t : Triple} {g : List Triple} :
    nodesOf (t :: g) = t.1 :: t.2.2 :: nodesOf g := rfl

theorem subj_mem_nodesOf {g : List Triple} {t : Triple} (h : t ∈ g) :
    t.1 ∈ nodesOf g := by
  induction g with
  | nil => simp at h
  | cons u rest ih =>
      rw [nodesOf_cons]
      rcases List.mem_cons.mp h with h | h
      · subst h; exact List.mem_cons_self _ _
      · exact List.mem_cons_of_mem _ (List.mem_cons_of_mem _ (ih h))

theorem obj_mem_nodesOf {g : List Triple} {t : Triple} (h : t ∈ g) :
    t.2.2 ∈ nodesOf g := by
  induction g with
  | nil => simp at h
  | cons u rest ih =>
      rw [nodesOf_cons]
      rcases List.mem_cons.mp h with h | h
      · subst h; exact List.mem_cons_of_mem _ (List.mem_cons_self _ _)
      · exact List.mem_cons_of_mem _ (List.mem_cons_of_mem _ (ih h))

theorem predObjs_eq_nil_of_not_node {g : List Triple} {c : String}
    (h : c ∉ nodesOf g) (preds : List String) : predObjs g c preds = [] := by
  rcases hq : predObjs g c preds with _ | ⟨y, rest⟩
  · rfl
  · exfalso
    have hy : y ∈ predObjs g c preds := by rw [hq]; exact List.mem_cons_self _ _
    rcases mem_predObjs_iff.mp hy with ⟨p, _, hpy⟩
    exact h (subj_mem_nodesOf hpy)

theorem length_filter_lt_of_mem_false {α : Type} {l : List α} {p : α → Bool} {x : α}
    (hx : x ∈ l) (hpx : p x = false) : (l.filter p).length < l.length := by
  induction l with
  | nil => simp at hx
  | cons a rest ih =>
      rcases List.mem_cons.mp hx with h | h
      · subst h
        have hle := List.length_filter_le p rest
        simp [List.filter_cons, hpx]
        omega
      · by_cases hpa : p a
        · simpa [List.filter_cons, hpa] using ih h
        · have hle := List.length_filter_le p rest
          simp only [List.filter_cons, hpa, Bool.false_eq_true, if_false, cond_false]
          simp only [List.length_cons]
          omega

/-- The breadth-first worklist traversal at the heart of
`_check_with_manual_traversal` (semantic_type.py, lines 233-252),
generalised over the list of predicates to follow: pop the front of the
queue, skip it if already visited, return `true` as soon as the target
appears among the one-step objects, otherwise enqueue those objects.  The
visited set bounds the recursion, so the function is total even on cyclic
graphs. -/
def bfsAux (g : List Triple) (preds : List String) (target : String) :
    List String → List String → Bool
  | [], _ => false
  | current :: rest, visited =>
      if current ∈ visited then
        bfsAux g preds target rest visited
      else
        let objs := predObjs g current preds
        if target ∈ objs then true
        else bfsAux g preds target (rest ++ objs) (current :: visited)
termination_by queue visited =>
  (((nodesOf g).filter (fun n => !(visited.contains n))).length, queue.length)
decreasing_by
  · apply Prod.Lex.right
    simp
  · rename_i hnv htar
    by_cases hcur : current ∈ nodesOf g
    · apply Prod.Lex.left
      have hpt : (fun n : String => !((current :: visited).contains n))
               = (fun n : String => (!decide (n = current)) && !(visited.contains n)) := by
        funext n
        simp [List.contains_cons]
      rw [hpt, ← List.filter_filter]
      apply length_filter_lt_of_mem_false
      · exact List.mem_filter.mpr ⟨hcur, by simp [hnv]⟩
      · simp
    · have hobjs : predObjs g current preds = [] := predObjs_eq_nil_of_not_node hcur preds
      have hfeq : (nodesOf g).filter (fun n => !((current :: visited).contains n))
                = (nodesOf g).filter (fun n => !(visited.contains n)) := by
        apply List.filter_congr
        intro n hn
        have hne : n ≠ current := fun h => hcur (h ▸ hn)
        simp [List.contains_cons, hne]
      rw [hfeq, hobjs]
      apply Prod.Lex.right
      simp

/-- Soundness of the worklist traversal: a `true` answer exhibits a genuine
nonempty path from some queue element to the target along the followed
predicates. -/
theorem bfsAux_sound {g : List Triple} {preds : List String} {target : String} :
    ∀ queue visited, bfsAux g preds target queue visited = true →
      ∃ q ∈ queue, Relation.TransGen (fun x y => ∃ p ∈ preds, (x, p, y) ∈ g) q target := by
  intro queue visited
  induction queue, visited using bfsAux.induct g preds target with
  | case1 visited =>
      intro h
      simp [bfsAux] at h
  | case2 current rest visited hv ih =>
      intro h
      rw [bfsAux] at h
      rw [if_pos hv] at h
      rcases ih h with ⟨q, hq, ht⟩
      exact ⟨q, List.mem_cons_of_mem _ hq, ht⟩
  | case3 current rest visited hv objs htar =>
      intro _
      rcases mem_predObjs_iff.mp htar with ⟨p, hp, hedge⟩
      exact ⟨current, List.mem_cons_self _ _, Relation.TransGen.single ⟨p, hp, hedge⟩⟩
  | case4 current rest visited hv objs htar ih =>
      intro h
      rw [bfsAux] at h
      rw [if_neg hv] at h
      rw [if_neg htar] at h
      rcases ih h with ⟨q, hq, ht⟩
      rcases List.mem_append.mp hq with hq | hq
      · exact ⟨q, List.mem_cons_of_mem _ hq, ht⟩
      · rcases mem_predObjs_iff.mp hq with ⟨p, hp, hedge⟩
        exact ⟨current, List.mem_cons_self _ _, Relation.TransGen.head ⟨p, hp, hedge⟩ ht⟩

/-- Embeds `_check_with_manual_traversal` (semantic_type.py, lines 221-255):
breadth-first traversal from the narrower IRI following `skos:broader` and
`rdfs:subClassOf` edges, with a visited set. -/
def _check_with_manual_traversal (g : List Triple) (narrower_iri broader_iri : String) : Bool :=
  bfsAux g [broaderProp, subclassProp] broader_iri [narrower_iri] []

/-- Modelled from the spec (§4.3, §6): the SPARQL property-path query
`ASK { x p* y }` evaluated by the external rdflib engine answers reflexive-
transitive reachability along the single predicate `p`; here it is computed
by the same terminating worklist traversal. -/
def reachStar (g : List Triple) (p x y : String) : Bool :=
  decide (x = y) || bfsAux g [p] y [x] []

/-- Embeds `_check_with_transitive_query` (semantic_type.py, lines 198-218): the
union of the `skos:broader*` and `rdfs:subClassOf*` path queries.  The
exception fallback to manual traversal is not modelled: query evaluation is
total here. -/
def _check_with_transitive_query (g : List Triple) (narrower_iri broader_iri : String) : Bool :=
  reachStar g broaderProp narrower_iri broader_iri
    || reachStar g subclassProp narrower_iri broader_iri

/-- Embeds `is_subtype_of` (semantic_type.py, lines 146-196): with reasoning
disabled, raw string equality; otherwise normalize both IRIs, short-circuit
on identity (recording it in the cache), consult the cache, lazily load
missing types when enabled, answer via the transitive query or the manual
traversal, and memoize the answer. -/
def is_subtype_of (enabled backendTrans : Bool) (fetch : String → Option (List Triple))
    (r : Resolver) (narrower_iri broader_iri : String) : Bool × Resolver :=
  if !enabled then (decide (narrower_iri = broader_iri), r)
  else
    let n := normalize_iri narrower_iri
    let b := normalize_iri broader_iri
    let cache_key := (n, b)
    if n = b then
      (true, { r with relation_cache := (cache_key, true) :: r.relation_cache })
    else
      match lookupCache r.relation_cache cache_key with
      | some v => (v, r)
      | none =>
          let r1 :=
            if r.lazy_load then
              let ra :=
                if !(_type_exists_in_graph r.graph n) then
                  (_lazy_load_semantic_type fetch r n).2
                else r
              if !(_type_exists_in_graph ra.graph b) then
                (_lazy_load_semantic_type fetch ra b).2
              else ra
            else r
          let sr := _test_transitive_support backendTrans r1
          let result :=
            if sr.1 then _check_with_transitive_query sr.2.graph n b
            else _check_with_manual_traversal sr.2.graph n b
          (result, { sr.2 with relation_cache := (cache_key, result) :: sr.2.relation_cache })

/-- Embeds `add_test_relationship` (semantic_type.py, lines 261-271): add a
`skos:broader` triple between the normalized IRIs and clear the relation
cache.  The transitive-support flag is left untouched by the source. -/
def add_test_relationship (r : Resolver) (narrower_iri broader_iri : String) : Resolver :=
  { r with
      graph := r.graph
        ++ [(normalize_iri narrower_iri, broaderProp, normalize_iri broader_iri)],
      relation_cache := [] }

/-! ## The public API (`api.py`)

The structural layer lives in the `_canonicalization` module, which is not
part of the sources; following the spec it is passed in as explicit
parameters: `canon` models `simplify_schema_and_embed_checkers ∘
canonicalize_schema` (signalling `recursionError` exactly when
canonicalization overflows the stack on a cyclic schema graph, spec §4.1),
and `isSub`, `smeet`, `sjoin` model the canonical algebra's `isSubtype`,
`meet` and `join`, whose results are schema documents in the same keyword
vocabulary (spec §6). -/

/-- Outcome of canonicalizing one schema.  Modelled from the spec (§4.1):
`canonicalize` fails with a `RecursionError` exactly when the schema graph
contains a cycle; the `_canonicalization` module itself is not in the
sources. -/
inductive CanonResult (α : Type) where
  | ok (c : α)
  | recursionError

/-- Which operand a preparation failure is attributed to. -/
inductive Side where
  | LHS
  | RHS
deriving DecidableEq

/-- Embeds `UnsupportedRecursiveRef`: carries the offending schema and the side it
occurred on (api.py, lines 62-74). -/
inductive PrepError where
  | unsupportedRecursiveRef (schema : JSON) (side : Side)

/-- Embeds `prepare_operands` (api.py, lines 46-76): canonicalize both operands,
turning a `RecursionError` into `UnsupportedRecursiveRef` naming the
operand.  `jsonref.JsonRef.replace_refs` is the external reference resolver
and is the identity on the already-inlined documents modelled here. -/
def prepare_operands (canon : JSON → CanonResult JSON) (s1 s2 : JSON) :
    Except PrepError (JSON × JSON) :=
  match canon s1 with
  | .recursionError => .error (.unsupportedRecursiveRef s1 .LHS)
  | .ok c1 =>
      match canon s2 with
      | .recursionError => .error (.unsupportedRecursiveRef s2 .RHS)
      | .ok c2 => .ok (c1, c2)

/-- Embeds `isSubschema` (api.py, lines 79-95): with semantic reasoning enabled, an
incompatibility returns `False` before any canonicalization; otherwise both
operands are prepared and the structural subtype check decides. -/
def isSubschema (enabled : Bool) (R : JSON → JSON → Bool)
    (canon : JSON → CanonResult JSON) (isSub : JSON → JSON → Bool)
    (s1 s2 : JSON) : Except PrepError Bool :=
  if enabled && !(is_semantically_compatible enabled R s1 s2) then .ok false
  else (prepare_operands canon s1 s2).map (fun p => isSub p.1 p.2)

/-- The Bottom schema document `{"not": {}}`. -/
def bottomSchema : JSON := .obj [("not", .obj [])]

/-- Embeds `_determine_meet_semantic_type` (api.py, lines 214-237): the more
specific of the two annotations; `none` on unresolvable incomparability. -/
def _determine_meet_semantic_type (R : JSON → JSON → Bool)
    (s1_stype s2_stype : Option JSON) : Option JSON :=
  if s1_stype = s2_stype then s1_stype
  else
    match s1_stype, s2_stype with
    | none, _ => s2_stype
    | _, none => s1_stype
    | some x, some y =>
        if R x y then some x
        else if R y x then some y
        else none

/-- Embeds `_determine_join_semantic_type` (api.py, lines 240-262): the more
general of the two annotations; `none` when either side lacks one or the
two are incomparable. -/
def _determine_join_semantic_type (R : JSON → JSON → Bool)
    (s1_stype s2_stype : Option JSON) : Option JSON :=
  if s1_stype = s2_stype then s1_stype
  else
    match s1_stype, s2_stype with
    | none, _ => none
    | _, none => none
    | some x, some y =>
        if R x y then some y
        else if R y x then some x
        else none

/-- Embeds `meet` (api.py, lines 98-131): a semantic incompatibility yields the
Bottom schema `{"not": {}}` before any structural work; otherwise the
structural meet is computed and the chosen annotation, if any, attached
(note `if ... and (s1_stype or s2_stype)` uses Python truthiness). -/
def meet (enabled : Bool) (R : JSON → JSON → Bool)
    (canon : JSON → CanonResult JSON) (smeet : JSON → JSON → JSON)
    (s1 s2 : JSON) : Except PrepError JSON :=
  if enabled && !(is_semantically_compatible enabled R s1 s2) then .ok bottomSchema
  else
    let s1_stype := s1.get "stype"
    let s2_stype := s2.get "stype"
    let result_stype : Option JSON :=
      if enabled && (truthyOpt s1_stype || truthyOpt s2_stype) then
        _determine_meet_semantic_type R s1_stype s2_stype
      else none
    (prepare_operands canon s1 s2).map (fun p =>
      let result := smeet p.1 p.2
      match result_stype with
      | some st => result.setField "stype" st
      | none => result)

/-- Embeds `join` (api.py, lines 134-181): the chosen annotation, if any, is
attached to the structural join.  The `ValueError` fallback for the
ambiguous numeric bound (lines 165-181) originates in the missing
structural layer; per the spec (§7) the structural join passed in here is
total, so that path is dead. -/
def join (enabled : Bool) (R : JSON → JSON → Bool)
    (canon : JSON → CanonResult JSON) (sjoin : JSON → JSON → JSON)
    (s1 s2 : JSON) : Except PrepError JSON :=
  let s1_stype := s1.get "stype"
  let s2_stype := s2.get "stype"
  let result_stype : Option JSON :=
    if enabled && (truthyOpt s1_stype || truthyOpt s2_stype) then
      _determine_join_semantic_type R s1_stype s2_stype
    else none
  (prepare_operands canon s1 s2).map (fun p =>
    let result := sjoin p.1 p.2
    match result_stype with
    | some st => result.setField "stype" st
    | none => result)

/-- The final line of `isEquivalent` (api.py, line 211):
`isSubschema(s1, s2) and isSubschema(s2, s1)` with Python's short-circuit
evaluation. -/
def isEquivalent_structural (enabled : Bool) (R : JSON → JSON → Bool)
    (canon : JSON → CanonResult JSON) (isSub : JSON → JSON → Bool)
    (s1 s2 : JSON) : Except PrepError Bool := do
  let r1 ← isSubschema enabled R canon isSub s1 s2
  if r1 then isSubschema enabled R canon isSub s2 s1 else pure false

/-- Embeds `isEquivalent` (api.py, lines 184-211): when semantics are enabled,
both-direction compatibility, equal annotation presence and both-direction
annotation subtyping are required before the two structural subschema
checks. -/
def isEquivalent (enabled : Bool) (R : JSON → JSON → Bool)
    (canon : JSON → CanonResult JSON) (isSub : JSON → JSON → Bool)
    (s1 s2 : JSON) : Except PrepError Bool :=
  if enabled then
    if !(is_semantically_compatible enabled R s1 s2)
        || !(is_semantically_compatible enabled R s2 s1) then .ok false
    else
      let s1_stype := s1.get "stype"
      let s2_stype := s2.get "stype"
      if s1_stype.isNone != s2_stype.isNone then .ok false
      else
        match s1_stype, s2_stype with
        | some x, some y =>
            if !(R x y && R y x) then .ok false
            else isEquivalent_structural enabled R canon isSub s1 s2
        | _, _ => isEquivalent_structural enabled R canon isSub s1 s2
  else isEquivalent_structural enabled R canon isSub s1 s2

/-! ## Claim theorems -/

/-- With reasoning enabled, a true `is_semantically_compatible` answer
includes a true root-level `_check_semantic_types_compatible` answer. -/
theorem compat_root {R : JSON → JSON → Bool} {s1 s2 : JSON}
    (h : is_semantically_compatible true R s1 s2 = true) :
    _check_semantic_types_compatible R s1 s2 = true := by
  rw [is_semantically_compatible] at h
  by_cases hc : _check_semantic_types_compatible R s1 s2 = true
  · exact hc
  · simp [hc] at h

/-- C2: the semantic compatibility rule at one node: both annotations
absent ⇒ compatible; only the left annotated ⇒ compatible; only the right
annotated ⇒ incompatible; both annotated ⇒ compatible exactly when the
resolver reports the left concept a subtype of the right concept. -/
theorem one_node_semantic_rule (R : JSON → JSON → Bool) (s1 s2 : JSON) :
    (s1.get "stype" = none → s2.get "stype" = none →
        _check_semantic_types_compatible R s1 s2 = true) ∧
    (∀ x, s1.get "stype" = some x → s2.get "stype" = none →
        _check_semantic_types_compatible R s1 s2 = true) ∧
    (∀ y, s1.get "stype" = none → s2.get "stype" = some y →
        _check_semantic_types_compatible R s1 s2 = false) ∧
    (∀ x y, s1.get "stype" = some x → s2.get "stype" = some y →
        _check_semantic_types_compatible R s1 s2 = R x y) := by
  refine ⟨?_, ?_, ?_, ?_⟩
  · intro h1 h2; simp [_check_semantic_types_compatible, h1, h2]
  · intro x h1 h2; simp [_check_semantic_types_compatible, h1, h2]
  · intro y h1 h2; simp [_check_semantic_types_compatible, h1, h2]
  · intro x y h1 h2; simp [_check_semantic_types_compatible, h1, h2]

theorem one_node_semantic_rule_witness :
    _check_semantic_types_compatible (fun _ _ => true)
      (JSON.obj []) (JSON.obj [("stype", JSON.str "quantitykind:Temperature")]) = false :=
  (one_node_semantic_rule (fun _ _ => true) (JSON.obj [])
      (JSON.obj [("stype", JSON.str "quantitykind:Temperature")])).2.2.1
    (JSON.str "quantitykind:Temperature") rfl rfl

/-- C1: with semantic reasoning enabled, `isSubschema` returns `False`
directly on a semantic incompatibility — for every canonicalizer and every
structural subtype oracle, so neither operand is canonicalized — and
otherwise canonicalizes both operands and returns the structural result. -/
theorem isSubschema_semantic_gate (R : JSON → JSON → Bool)
    (canon : JSON → CanonResult JSON) (isSub : JSON → JSON → Bool) (s1 s2 : JSON) :
    (is_semantically_compatible true R s1 s2 = false →
        isSubschema true R canon isSub s1 s2 = .ok false) ∧
    (is_semantically_compatible true R s1 s2 = true →
        isSubschema true R canon isSub s1 s2 =
          (prepare_operands canon s1 s2).map (fun p => isSub p.1 p.2)) := by
  constructor
  · intro h; simp [isSubschema, h]
  · intro h; simp [isSubschema, h]

theorem isSubschema_semantic_gate_witness :
    isSubschema true (fun _ _ => true) (fun _ => CanonResult.recursionError) (fun _ _ => true)
      (JSON.obj []) (JSON.obj [("stype", JSON.str "foaf:Person")]) = .ok false :=
  (isSubschema_semantic_gate (fun _ _ => true) (fun _ => CanonResult.recursionError)
      (fun _ _ => true) (JSON.obj []) (JSON.obj [("stype", JSON.str "foaf:Person")])).1
    (by
      rw [is_semantically_compatible]
      simp [_check_semantic_types_compatible, JSON.get, lookupField])

/-- C3: with semantic reasoning enabled, a semantic incompatibility makes
`meet` return the Bottom schema `{"not": {}}` — for every canonicalizer and
every structural meet, so no structural meet is computed. -/
theorem meet_incompatible_bottom (R : JSON → JSON → Bool)
    (canon : JSON → CanonResult JSON) (smeet : JSON → JSON → JSON) (s1 s2 : JSON)
    (h : is_semantically_compatible true R s1 s2 = false) :
    meet true R canon smeet s1 s2 = .ok bottomSchema := by
  simp [meet, h]

theorem meet_incompatible_bottom_witness :
    meet true (fun _ _ => true) (fun _ => CanonResult.recursionError)
      (fun _ _ => JSON.obj []) (JSON.obj []) (JSON.obj [("stype", JSON.str "foaf:Person")])
      = .ok bottomSchema :=
  meet_incompatible_bottom (fun _ _ => true) (fun _ => CanonResult.recursionError)
    (fun _ _ => JSON.obj []) (JSON.obj []) (JSON.obj [("stype", JSON.str "foaf:Person")])
    (by
      rw [is_semantically_compatible]
      simp [_check_semantic_types_compatible, JSON.get, lookupField])

/-- C8: when canonicalization signals a `RecursionError` (which, per the
spec, happens exactly on a cyclic schema reference graph), preparing the
operands fails with `UnsupportedRecursiveRef` carrying the operand at fault
and the offending schema, instead of producing any result pair. -/
theorem prepare_operands_recursive_ref (canon : JSON → CanonResult JSON) (s1 s2 : JSON) :
    (canon s1 = .recursionError →
        prepare_operands canon s1 s2 = .error (.unsupportedRecursiveRef s1 .LHS)) ∧
    (∀ c1, canon s1 = .ok c1 → canon s2 = .recursionError →
        prepare_operands canon s1 s2 = .error (.unsupportedRecursiveRef s2 .RHS)) := by
  constructor
  · intro h; simp [prepare_operands, h]
  · intro c1 h1 h2; simp [prepare_operands, h1, h2]

theorem prepare_operands_recursive_ref_witness :
    prepare_operands (fun _ => CanonResult.recursionError) (JSON.obj []) JSON.null
      = .error (.unsupportedRecursiveRef (JSON.obj []) .LHS) :=
  (prepare_operands_recursive_ref (fun _ => CanonResult.recursionError)
      (JSON.obj []) JSON.null).1 rfl

theorem except_bind_error {α β : Type} (e : PrepError) (f : α → Except PrepError β) :
    (Except.error e >>= f) = Except.error e := rfl

theorem except_bind_ok {α β : Type} (a : α) (f : α → Except PrepError β) :
    (Except.ok a >>= f) = f a := rfl

theorem except_pure {β : Type} (b : β) : (pure b : Except PrepError β) = Except.ok b := rfl

theorem isEquivalent_structural_ok_true_iff (enabled : Bool) (R : JSON → JSON → Bool)
    (canon : JSON → CanonResult JSON) (isSub : JSON → JSON → Bool) (s1 s2 : JSON) :
    isEquivalent_structural enabled R canon isSub s1 s2 = .ok true ↔
      (isSubschema enabled R canon isSub s1 s2 = .ok true ∧
       isSubschema enabled R canon isSub s2 s1 = .ok true) := by
  unfold isEquivalent_structural
  cases h1 : isSubschema enabled R canon isSub s1 s2 with
  | error e => simp [h1, except_bind_error]
  | ok b =>
      cases b with
      | false => simp [h1, except_bind_ok, except_pure]
      | true => simp [h1, except_bind_ok]

/-- C5: `isEquivalent(a,b)` answers `True` exactly when both
`isSubschema(a,b)` and `isSubschema(b,a)` answer `True` — the extra
per-root annotation checks done by `isEquivalent` when semantics are
enabled are implied by the two compatibility checks, so the biconditional
holds unconditionally. -/
theorem isEquivalent_iff_mutual_subschema (enabled : Bool) (R : JSON → JSON → Bool)
    (canon : JSON → CanonResult JSON) (isSub : JSON → JSON → Bool) (s1 s2 : JSON) :
    isEquivalent enabled R canon isSub s1 s2 = .ok true ↔
      (isSubschema enabled R canon isSub s1 s2 = .ok true ∧
       isSubschema enabled R canon isSub s2 s1 = .ok true) := by
  cases enabled with
  | false =>
      rw [isEquivalent]
      simp only [Bool.false_eq_true, if_false]
      exact isEquivalent_structural_ok_true_iff false R canon isSub s1 s2
  | true =>
      rw [isEquivalent]
      simp only [if_true]
      cases hc1 : is_semantically_compatible true R s1 s2 with
      | false =>
          have hsub : isSubschema true R canon isSub s1 s2 = .ok false := by
            simp [isSubschema, hc1]
          simp [hc1, hsub]
      | true =>
          cases hc2 : is_semantically_compatible true R s2 s1 with
          | false =>
              have hsub : isSubschema true R canon isSub s2 s1 = .ok false := by
                simp [isSubschema, hc2]
              simp [hc1, hc2, hsub]
          | true =>
              have hroot12 := compat_root hc1
              have hroot21 := compat_root hc2
              simp only [hc1, hc2, Bool.not_true, Bool.or_self, Bool.false_eq_true, if_false]
              cases hst1 : s1.get "stype" with
              | none =>
                  cases hst2 : s2.get "stype" with
                  | none =>
                      simp only [hst1, hst2, Option.isNone_none, bne_self_eq_false,
                        Bool.false_eq_true, if_false]
                      exact isEquivalent_structural_ok_true_iff true R canon isSub s1 s2
                  | some y =>
                      exfalso
                      rw [_check_semantic_types_compatible, hst1, hst2] at hroot12
                      simp at hroot12
              | some x =>
                  cases hst2 : s2.get "stype" with
                  | none =>
                      exfalso
                      rw [_check_semantic_types_compatible, hst2, hst1] at hroot21
                      simp at hroot21
                  | some y =>
                      have hxy : R x y = true := by
                        rw [_check_semantic_types_compatible, hst1, hst2] at hroot12
                        exact hroot12
                      have hyx : R y x = true := by
                        rw [_check_semantic_types_compatible, hst2, hst1] at hroot21
                        exact hroot21
                      simp only [hst1, hst2, Option.isNone_some, bne_self_eq_false,
                        Bool.false_eq_true, if_false, hxy, hyx, Bool.and_self,
                        Bool.not_true]
                      exact isEquivalent_structural_ok_true_iff true R canon isSub s1 s2

theorem determine_join_none_left (R : JSON → JSON → Bool) (o : Option JSON) :
    _determine_join_semantic_type R none o = none := by
  cases o <;> simp [_determine_join_semantic_type]

theorem determine_join_none_right (R : JSON → JSON → Bool) (o : Option JSON) :
    _determine_join_semantic_type R o none = none := by
  cases o <;> simp [_determine_join_semantic_type]

/-- C9 (counterexample to the claim as stated): both operands carry the
annotation `""` — equal, hence comparable under any resolver — yet `join`
attaches no annotation at all, because `(s1_stype or s2_stype)` is false
under Python truthiness for the empty string. -/
theorem join_both_annotated_counterexample :
    ((JSON.obj [("stype", JSON.str "")]).get "stype" = some (JSON.str "")) ∧
    ((fun (_ _ : JSON) => true) (JSON.str "") (JSON.str "") = true) ∧
    join true (fun _ _ => true) (fun s => CanonResult.ok s) (fun _ _ => JSON.obj [])
        (JSON.obj [("stype", JSON.str "")]) (JSON.obj [("stype", JSON.str "")])
      = .ok (JSON.obj []) ∧
    ¬ ∃ st r, join true (fun _ _ => true) (fun s => CanonResult.ok s) (fun _ _ => JSON.obj [])
        (JSON.obj [("stype", JSON.str "")]) (JSON.obj [("stype", JSON.str "")])
      = .ok r ∧ r.get "stype" = some st := by
  have hjoin : join true (fun _ _ => true) (fun s => CanonResult.ok s) (fun _ _ => JSON.obj [])
      (JSON.obj [("stype", JSON.str "")]) (JSON.obj [("stype", JSON.str "")])
      = .ok (JSON.obj []) := by
    unfold join
    simp [JSON.get, lookupField, truthyOpt, JSON.truthy, prepare_operands, Except.map]
  refine ⟨by simp [JSON.get, lookupField], rfl, hjoin, ?_⟩
  rintro ⟨st, r, hr, hst⟩
  rw [hjoin] at hr
  cases hr
  simp [JSON.get, lookupField] at hst

/-- C9 (amended): the `join` result carries no `stype` whenever either
operand lacks one or the two annotations are incomparable per the resolver;
when both operands are annotated and comparable, the more general
annotation is attached — provided at least one of the two annotation values
is truthy: a pair of falsy annotation values (such as `""`) is treated as
absent and nothing is attached.  The structural join result is an object
without `stype`, as the spec's per-kind algebra produces. -/
theorem join_stype_attachment (R : JSON → JSON → Bool)
    (canon : JSON → CanonResult JSON) (sjoin : JSON → JSON → JSON)
    (s1 s2 c1 c2 : JSON) (fs : List (String × JSON))
    (hprep : prepare_operands canon s1 s2 = .ok (c1, c2))
    (hres : sjoin c1 c2 = .obj fs)
    (hnost : lookupField fs "stype" = none) :
    ((s1.get "stype" = none ∨ s2.get "stype" = none) →
        ∃ r, join true R canon sjoin s1 s2 = .ok r ∧ r.get "stype" = none) ∧
    (∀ x y, s1.get "stype" = some x → s2.get "stype" = some y → x ≠ y →
        R x y = false → R y x = false →
        ∃ r, join true R canon sjoin s1 s2 = .ok r ∧ r.get "stype" = none) ∧
    (∀ x, s1.get "stype" = some x → s2.get "stype" = some x → x.truthy = true →
        ∃ r, join true R canon sjoin s1 s2 = .ok r ∧ r.get "stype" = some x) ∧
    (∀ x y, s1.get "stype" = some x → s2.get "stype" = some y → x ≠ y →
        (x.truthy || y.truthy) = true → R x y = true →
        ∃ r, join true R canon sjoin s1 s2 = .ok r ∧ r.get "stype" = some y) ∧
    (∀ x y, s1.get "stype" = some x → s2.get "stype" = some y → x ≠ y →
        (x.truthy || y.truthy) = true → R x y = false → R y x = true →
        ∃ r, join true R canon sjoin s1 s2 = .ok r ∧ r.get "stype" = some x) ∧
    (∀ x, s1.get "stype" = some x → s2.get "stype" = some x → x.truthy = false →
        ∃ r, join true R canon sjoin s1 s2 = .ok r ∧ r.get "stype" = none) := by
  refine ⟨?_, ?_, ?_, ?_, ?_, ?_⟩
  · intro h
    refine ⟨sjoin c1 c2, ?_, by rw [hres]; exact hnost⟩
    unfold join
    rw [hprep]
    rcases h with h | h
    · simp [h, determine_join_none_left, Except.map]
    · simp [h, determine_join_none_right, Except.map]
  · intro x y hst1 hst2 hne hxy hyx
    refine ⟨sjoin c1 c2, ?_, by rw [hres]; exact hnost⟩
    unfold join
    rw [hprep]
    simp [hst1, hst2, _determine_join_semantic_type, hne, hxy, hyx, Except.map]
  · intro x hst1 hst2 htr
    refine ⟨(sjoin c1 c2).setField "stype" x, ?_, ?_⟩
    · unfold join
      rw [hprep]
      simp [hst1, hst2, _determine_join_semantic_type, truthyOpt, htr, Except.map]
    · rw [hres]
      exact lookupField_setFieldList fs "stype" x
  · intro x y hst1 hst2 hne htr hxy
    refine ⟨(sjoin c1 c2).setField "stype" y, ?_, ?_⟩
    · unfold join
      rw [hprep]
      simp [hst1, hst2, _determine_join_semantic_type, truthyOpt, htr, hne, hxy, Except.map]
    · rw [hres]
      exact lookupField_setFieldList fs "stype" y
  · intro x y hst1 hst2 hne htr hxy hyx
    refine ⟨(sjoin c1 c2).setField "stype" x, ?_, ?_⟩
    · unfold join
      rw [hprep]
      simp [hst1, hst2, _determine_join_semantic_type, truthyOpt, htr, hne, hxy, hyx, Except.map]
    · rw [hres]
      exact lookupField_setFieldList fs "stype" x
  · intro x hst1 hst2 htr
    refine ⟨sjoin c1 c2, ?_, by rw [hres]; exact hnost⟩
    unfold join
    rw [hprep]
    simp [hst1, hst2, truthyOpt, htr, Except.map]

theorem join_stype_attachment_witness :
    ∃ r, join true (fun _ _ => true) (fun s => CanonResult.ok s) (fun _ _ => JSON.obj [])
        (JSON.obj [("stype", JSON.str "foaf:Person")])
        (JSON.obj [("stype", JSON.str "foaf:Person")])
      = .ok r ∧ r.get "stype" = some (JSON.str "foaf:Person") :=
  (join_stype_attachment (fun _ _ => true) (fun s => CanonResult.ok s)
      (fun _ _ => JSON.obj [])
      (JSON.obj [("stype", JSON.str "foaf:Person")])
      (JSON.obj [("stype", JSON.str "foaf:Person")])
      (JSON.obj [("stype", JSON.str "foaf:Person")])
      (JSON.obj [("stype", JSON.str "foaf:Person")]) [] rfl rfl rfl).2.2.1
    (JSON.str "foaf:Person") (by simp [JSON.get, lookupField]) (by simp [JSON.get, lookupField]) rfl

/-- C10: with semantic reasoning disabled, `is_subtype_of` is raw string
equality on the unnormalized inputs (and leaves the resolver untouched);
in particular the compact form `foaf:Person` and its expansion
`http://xmlns.com/foaf/0.1/Person` — identified by `normalize_iri` — are
not then recognized as subtypes of each other in either direction. -/
theorem is_subtype_of_disabled_raw_equality (backendTrans : Bool)
    (fetch : String → Option (List Triple)) (r : Resolver) (x y : String) :
    (is_subtype_of false backendTrans fetch r x y = (decide (x = y), r)) ∧
    ((is_subtype_of false backendTrans fetch r "foaf:Person"
        "http://xmlns.com/foaf/0.1/Person").1 = false) ∧
    ((is_subtype_of false backendTrans fetch r "http://xmlns.com/foaf/0.1/Person"
        "foaf:Person").1 = false) ∧
    normalize_iri "foaf:Person" = normalize_iri "http://xmlns.com/foaf/0.1/Person" := by
  refine ⟨rfl, ?_, ?_, by decide⟩
  · simp [is_subtype_of]
  · simp [is_subtype_of]

/-- C7: the manual traversal is a total function (its worklist recursion is
bounded by the visited set, so it terminates on every finite graph, cyclic
relation data included), and a `true` answer exhibits a genuine nonempty
path from the narrower to the broader concept along `skos:broader` or
`rdfs:subClassOf` edges. -/
theorem manual_traversal_sound (g : List Triple) (n b : String)
    (h : _check_with_manual_traversal g n b = true) :
    Relation.TransGen
      (fun x y => (x, broaderProp, y) ∈ g ∨ (x, subclassProp, y) ∈ g) n b := by
  rcases bfsAux_sound _ _ h with ⟨q, hq, ht⟩
  have hqn : q = n := by simpa using hq
  subst hqn
  refine Relation.TransGen.mono ?_ ht
  intro a c hac
  rcases hac with ⟨p, hp, hm⟩
  rcases List.mem_cons.mp hp with rfl | hp
  · exact Or.inl hm
  · rcases List.mem_cons.mp hp with rfl | hp
    · exact Or.inr hm
    · simp at hp

/-- The traversal completes on a cyclic two-node graph and its `true`
answer yields the edge path. -/
theorem manual_traversal_sound_witness :
    Relation.TransGen
      (fun x y => (x, broaderProp, y) ∈
          ([("A", broaderProp, "B"), ("B", broaderProp, "A")] : List Triple) ∨
        (x, subclassProp, y) ∈
          ([("A", broaderProp, "B"), ("B", broaderProp, "A")] : List Triple))
      "A" "B" :=
  manual_traversal_sound _ "A" "B" (by
    simp [_check_with_manual_traversal, bfsAux, predObjs, objectsOf,
      broaderProp, subclassProp])

theorem transGen_last {α : Type} {r : α → α → Prop} {a b : α}
    (h : Relation.TransGen r a b) : ∃ c, r c b := by
  induction h with
  | single h => exact ⟨_, h⟩
  | tail _ h2 _ => exact ⟨_, h2⟩

theorem bfsAux_false_of_no_inbound {g : List Triple} {preds : List String} {target : String}
    (htgt : ∀ t ∈ g, t.2.2 ≠ target) (queue visited : List String) :
    bfsAux g preds target queue visited = false := by
  cases hb : bfsAux g preds target queue visited with
  | false => rfl
  | true =>
      exfalso
      rcases bfsAux_sound _ _ hb with ⟨q, _, ht⟩
      rcases transGen_last ht with ⟨c, p, _, hm⟩
      exact htgt _ hm rfl

theorem bfsAux_false_of_no_outbound {g : List Triple} {preds : List String} {target q : String}
    (hq : ∀ t ∈ g, t.1 ≠ q) : bfsAux g preds target [q] [] = false := by
  have hobj : predObjs g q preds = [] := by
    rcases hcase : predObjs g q preds with _ | ⟨z, rest⟩
    · rfl
    · exfalso
      have hz : z ∈ predObjs g q preds := by
        rw [hcase]; exact List.mem_cons_self _ _
      rcases mem_predObjs_iff.mp hz with ⟨p, _, hm⟩
      exact hq _ hm rfl
  rw [bfsAux]
  simp [hobj, bfsAux]

/-- C6 (counterexample to the claim as stated): injecting a test
relationship clears the relation cache but does not reset the cached
transitive-support flag — on a resolver whose flag is `some true` the flag
is still `some true` afterwards, not `none`. -/
theorem add_test_relationship_flag_counterexample :
    (add_test_relationship ⟨[], [(("u", "v"), true)], some true, false, []⟩ "a" "b").relation_cache
        = [] ∧
    ¬ ((add_test_relationship ⟨[], [(("u", "v"), true)], some true, false, []⟩
          "a" "b").supports_transitive_queries = none) := by
  constructor
  · rfl
  · intro h
    simp [add_test_relationship] at h

/-- C6 (amended): every pair resolved with reasoning enabled is memoized in
the relation cache regardless of whether the identity shortcut, the cache,
the transitive query or the manual traversal answered it; a completed lazy
fetch clears the whole cache and resets the transitive-support flag; an
injected test relationship clears the whole cache but leaves the
transitive-support flag unchanged. -/
theorem resolver_cache_invariants :
    (∀ (backendTrans : Bool) (fetch : String → Option (List Triple))
        (r : Resolver) (x y : String),
        lookupCache (is_subtype_of true backendTrans fetch r x y).2.relation_cache
            (normalize_iri x, normalize_iri y)
          = some (is_subtype_of true backendTrans fetch r x y).1) ∧
    (∀ (fetch : String → Option (List Triple)) (r : Resolver) (iri : String) (r' : Resolver),
        _lazy_load_semantic_type fetch r iri = (true, r') →
        r'.relation_cache = [] ∧ r'.supports_transitive_queries = none) ∧
    (∀ (r : Resolver) (x y : String),
        (add_test_relationship r x y).relation_cache = [] ∧
        (add_test_relationship r x y).supports_transitive_queries
          = r.supports_transitive_queries) := by
  refine ⟨?_, ?_, ?_⟩
  · intro bt f r x y
    by_cases hnb : normalize_iri x = normalize_iri y
    · simp [is_subtype_of, hnb, lookupCache]
    · cases hca : lookupCache r.relation_cache (normalize_iri x, normalize_iri y) with
      | some v => simp [is_subtype_of, hnb, hca]
      | none => simp [is_subtype_of, hnb, hca, lookupCache]
  · intro f r iri r' h
    unfold _lazy_load_semantic_type at h
    by_cases hl : r.lazy_load
    · simp only [hl, Bool.not_true, Bool.false_eq_true, if_false] at h
      by_cases hns : _extract_namespace iri ∈ r.fetched_namespaces
      · simp [hns] at h
      · simp only [hns, if_false, if_true] at h
        cases hf : f (_extract_namespace iri) with
        | none => rw [hf] at h; simp at h
        | some triples =>
            rw [hf] at h
            have h2 := (Prod.mk.injEq _ _ _ _).mp h
            rw [← h2.2]
            exact ⟨rfl, rfl⟩
    · simp [hl] at h
  · intro r x y
    exact ⟨rfl, rfl⟩

theorem resolver_cache_invariants_witness :
    (⟨[], [], none, true, ["http://e/"]⟩ : Resolver).relation_cache = [] ∧
    (⟨[], [], none, true, ["http://e/"]⟩ : Resolver).supports_transitive_queries = none :=
  resolver_cache_invariants.2.1 (fun _ => some [])
    ⟨[], [(("u", "v"), true)], some true, true, []⟩ "http://e/X"
    ⟨[], [], none, true, ["http://e/"]⟩ (by rfl)

/-- C4: `is_subtype_of` normalizes both identifiers (expanding compact
notation against the fixed table, `foaf:Person` for instance, and passing
unknown prefixes such as `myns:` through unchanged) and answers `true` on
normalized identity for any resolver state, without consulting the graph;
consequently, on a fresh resolver (empty cache, no lazy loading), an
identifier that occurs in no triple of the graph stands in a true subtype
relationship only with itself, in either argument position. -/
theorem is_subtype_of_identity_and_isolation
    (backendTrans : Bool) (fetch : String → Option (List Triple))
    (r : Resolver) (x y : String) :
    (normalize_iri x = normalize_iri y →
        (is_subtype_of true backendTrans fetch r x y).1 = true) ∧
    (r.relation_cache = [] → r.lazy_load = false →
     (∀ t ∈ r.graph, t.1 ≠ normalize_iri x ∧ t.2.2 ≠ normalize_iri x) →
        ((is_subtype_of true backendTrans fetch r x y).1 = true ↔
            normalize_iri x = normalize_iri y) ∧
        ((is_subtype_of true backendTrans fetch r y x).1 = true ↔
            normalize_iri y = normalize_iri x)) ∧
    normalize_iri "foaf:Person" = "http://xmlns.com/foaf/0.1/Person" ∧
    normalize_iri "myns:Widget" = "myns:Widget" := by
  refine ⟨?_, ?_, by decide, by decide⟩
  · intro h
    simp [is_subtype_of, h]
  · intro hcache hlazy hx
    have hout : ∀ t ∈ r.graph, t.1 ≠ normalize_iri x := fun t ht => (hx t ht).1
    have hin : ∀ t ∈ r.graph, t.2.2 ≠ normalize_iri x := fun t ht => (hx t ht).2
    constructor
    · by_cases hnb : normalize_iri x = normalize_iri y
      · simp [is_subtype_of, hnb]
      · have hM : _check_with_manual_traversal r.graph (normalize_iri x) (normalize_iri y)
            = false := bfsAux_false_of_no_outbound hout
        have hT : _check_with_transitive_query r.graph (normalize_iri x) (normalize_iri y)
            = false := by
          unfold _check_with_transitive_query reachStar
          simp [hnb, bfsAux_false_of_no_outbound hout]
        cases hflag : r.supports_transitive_queries with
        | some v =>
            cases v <;>
              simp [is_subtype_of, hnb, hcache, hlazy, lookupCache,
                _test_transitive_support, hflag, hT, hM]
        | none =>
            cases backendTrans <;>
              simp [is_subtype_of, hnb, hcache, hlazy, lookupCache,
                _test_transitive_support, hflag, hT, hM]
    · by_cases hnb : normalize_iri y = normalize_iri x
      · simp [is_subtype_of, hnb]
      · have hM : _check_with_manual_traversal r.graph (normalize_iri y) (normalize_iri x)
            = false := bfsAux_false_of_no_inbound hin _ _
        have hT : _check_with_transitive_query r.graph (normalize_iri y) (normalize_iri x)
            = false := by
          unfold _check_with_transitive_query reachStar
          simp [hnb, bfsAux_false_of_no_inbound hin]
        cases hflag : r.supports_transitive_queries with
        | some v =>
            cases v <;>
              simp [is_subtype_of, hnb, hcache, hlazy, lookupCache,
                _test_transitive_support, hflag, hT, hM]
        | none =>
            cases backendTrans <;>
              simp [is_subtype_of, hnb, hcache, hlazy, lookupCache,
                _test_transitive_support, hflag, hT, hM]

theorem is_subtype_of_identity_and_isolation_witness :
    ((is_subtype_of true true (fun _ => none) ⟨[], [], none, false, []⟩ "ex:A" "ex:B").1 = true
        ↔ normalize_iri "ex:A" = normalize_iri "ex:B") ∧
    ((is_subtype_of true true (fun _ => none) ⟨[], [], none, false, []⟩ "ex:B" "ex:A").1 = true
        ↔ normalize_iri "ex:B" = normalize_iri "ex:A") :=
  (is_subtype_of_identity_and_isolation true (fun _ => none)
      ⟨[], [], none, false, []⟩ "ex:A" "ex:B").2.1 rfl rfl
    (by intro t ht; simp at ht)

end JsonSub
